import Mathlib

/-!
Verification of the POCS hardware command/orchestration layer.

Shallow embedding of the code under `src/src/panoptes/pocs/`:
- `camera/gphoto/canon.py` : `Camera.get_shutterspeed_index`
- `camera/gphoto/base.py`  : `AbstractGPhotoCamera.is_exposing`, `.command`,
  `.get_command_result`
- `observatory.py`         : `Observatory.add_camera`, `.observe`,
  `.process_observation`

Python values that matter to the embedded functions (strings vs. numbers,
dict insertion order, exceptions) are modelled explicitly; machine floats
in the shutter-speed table are modelled as the rationals denoted by the
same decimal literals, which preserves every equality and order comparison
the code performs on them.
-/

namespace POCS

/-! ## Python value model for `get_shutterspeed_index` (canon.py)

The `seconds` argument reaches the lookup unchanged for plain strings and
plain numbers (`get_quantity_value` only unwraps `astropy` quantities), so
the requested duration is either a string or a number.  Python `==` never
identifies a string with a number, and `<` between a string and a number
raises `TypeError`.
-/

inductive PyVal where
  | str (s : String)
  | num (q : ℚ)
deriving DecidableEq

inductive PyErr where
  | typeError
deriving DecidableEq

deriving instance DecidableEq for Except

/-- Python `==` between a requested duration and a table entry:
equal strings, or equal numbers; a string never equals a number. -/
def pyEq : PyVal → PyVal → Bool
  | PyVal.str a, PyVal.str b => a == b
  | PyVal.num a, PyVal.num b => a == b
  | _, _ => false

/-- Python `list.index` restricted to its success/failure behaviour:
the index of the first element satisfying the predicate, or `none`
(the `ValueError` case). -/
def pyIndex (p : α → Bool) : List α → Option Nat
  | [] => none
  | x :: xs => if p x then some 0 else (pyIndex p xs).map (· + 1)

/-! ## `Camera.get_shutterspeed_index` (canon.py lines 132-210)

The hard-coded `shutter_speeds` dict has the symbolic `bulb` entry at
index 0 (its dict value is the string `bulb`) followed by numeric entries.
The function is parametrised here by that non-bulb tail so that both the
table in the source and the table of the spec example can be used; the
bulb entry at position 0 is fixed, exactly as the data model requires.
-/

/-- Non-bulb tail of the `shutter_speeds` dict hard-coded in
`Camera.get_shutterspeed_index`, in source order (strictly decreasing). -/
def canonShutterTail : List (String × ℚ) :=
  [("30", 30), ("25", 25), ("20", 20), ("15", 15), ("13", 13),
   ("10.3", Rat.divInt 103 10), ("8", 8), ("6.3", Rat.divInt 63 10),
   ("5", 5), ("4", 4), ("3.2", Rat.divInt 32 10),
   ("2.5", Rat.divInt 25 10), ("2", 2), ("1.6", Rat.divInt 16 10),
   ("1.3", Rat.divInt 13 10), ("1", 1), ("0.8", Rat.divInt 8 10),
   ("0.6", Rat.divInt 6 10), ("0.5", Rat.divInt 5 10),
   ("0.4", Rat.divInt 4 10), ("0.3", Rat.divInt 3 10),
   ("1/4", Rat.divInt 1 4), ("1/5", Rat.divInt 1 5),
   ("1/6", Rat.divInt 1 6), ("1/8", Rat.divInt 1 8),
   ("1/10", Rat.divInt 1 10), ("1/13", Rat.divInt 1 13),
   ("1/15", Rat.divInt 1 15), ("1/20", Rat.divInt 1 20),
   ("1/25", Rat.divInt 1 25), ("1/30", Rat.divInt 1 30),
   ("1/40", Rat.divInt 1 40), ("1/50", Rat.divInt 1 50),
   ("1/60", Rat.divInt 1 60), ("1/80", Rat.divInt 1 80),
   ("1/100", Rat.divInt 1 100), ("1/125", Rat.divInt 1 125),
   ("1/160", Rat.divInt 1 160), ("1/200", Rat.divInt 1 200),
   ("1/250", Rat.divInt 1 250), ("1/320", Rat.divInt 1 320),
   ("1/400", Rat.divInt 1 400), ("1/500", Rat.divInt 1 500),
   ("1/640", Rat.divInt 1 640), ("1/800", Rat.divInt 1 800),
   ("1/1000", Rat.divInt 1 1000), ("1/1250", Rat.divInt 1 1250),
   ("1/1600", Rat.divInt 1 1600), ("1/2000", Rat.divInt 1 2000),
   ("1/2500", Rat.divInt 1 2500), ("1/3200", Rat.divInt 1 3200),
   ("1/4000", Rat.divInt 1 4000)]

/-- The spec example table `[bulb, 30, 8, 1, "1/1000"]`, without the
implicit bulb entry at index 0. -/
def specExampleTail : List (String × ℚ) :=
  [("30", 30), ("8", 8), ("1", 1), ("1/1000", Rat.divInt 1 1000)]

/-- `Camera.get_shutterspeed_index`, parametrised by the non-bulb tail of
the table.  Control flow follows the source:
- `list(shutter_speeds.keys()).index(seconds)` : first index whose key
  equals `seconds` (only a string can equal a string key);
- on `ValueError`, if `return_minimum` then evaluate
  `seconds < min(list(shutter_speeds.values())[1:])`:
  `min` of an empty tail raises `ValueError` (caught, giving index 0);
  comparing a string duration against the numeric minimum raises
  `TypeError` (not caught); a numeric duration below the minimum gives
  `len(shutter_speeds) - 1`;
- otherwise `list(shutter_speeds.values()).index(seconds)`, whose
  `ValueError` is caught and gives index 0 (bulb). -/
def get_shutterspeed_index_tbl (tbl_tail : List (String × ℚ))
    (seconds : PyVal) (return_minimum : Bool) : Except PyErr Nat :=
  let keys : List String := "bulb" :: tbl_tail.map Prod.fst
  let vals : List PyVal :=
    PyVal.str "bulb" :: tbl_tail.map (fun p => PyVal.num p.2)
  match pyIndex (fun k => pyEq seconds (PyVal.str k)) keys with
  | some i => Except.ok i
  | none =>
    if return_minimum then
      match tbl_tail.map Prod.snd with
      | [] => Except.ok 0
      | v :: vs =>
        let m := vs.foldl min v
        match seconds with
        | PyVal.str _ => Except.error PyErr.typeError
        | PyVal.num q =>
          if q < m then
            Except.ok tbl_tail.length
          else
            match pyIndex (fun w => pyEq seconds w) vals with
            | some i => Except.ok i
            | none => Except.ok 0
    else
      match pyIndex (fun w => pyEq seconds w) vals with
      | some i => Except.ok i
      | none => Except.ok 0

/-- `Camera.get_shutterspeed_index` with the table from the source. -/
def get_shutterspeed_index (seconds : PyVal) (return_minimum : Bool) :
    Except PyErr Nat :=
  get_shutterspeed_index_tbl canonShutterTail seconds return_minimum

/-! ## GPhoto command channel (base.py)

A camera owns at most one external-process invocation
(`self._command_proc`) plus the exposing event flag.  The process is
modelled by what the embedded functions observe of it: whether `poll()`
reports it exited, whether `communicate(timeout=t)` returns within `t`,
and the stdout/stderr text collected normally or after `kill()`. -/

structure GProc where
  exited : Bool
  exitsWithin : ℚ → Bool
  finalOut : String
  finalErr : String
  killOut : String
  killErr : String

structure GCamState where
  command_proc : Option GProc
  is_exposing_event : Bool

/-- `AbstractGPhotoCamera.is_exposing` (base.py lines 53-58): clears the
exposing event when the stored process has exited, then returns the
event.  Returns the flag together with the updated camera state. -/
def is_exposing (s : GCamState) : Bool × GCamState :=
  match s.command_proc with
  | some p =>
    if p.exited then (false, { s with is_exposing_event := false })
    else (s.is_exposing_event, s)
  | none => (s.is_exposing_event, s)

/-- Outcome of `subprocess.Popen`, supplied by the environment. -/
inductive SpawnOutcome where
  | ok (p : GProc)
  | osError
  | valueError
  | otherError

inductive CmdError where
  | invalidCommand (msg : String)
  | panError
deriving DecidableEq

/-- `AbstractGPhotoCamera.command` (base.py lines 76-103): raises
`error.InvalidCommand("Command already running")` when `is_exposing` is
true, otherwise spawns the process and stores its handle, translating
`OSError`/`ValueError` from `Popen` into `InvalidCommand` and anything
else into `PanError`.  The first component is the raised exception, if
any; the second is the camera state afterwards. -/
def command (s : GCamState) (spawn : SpawnOutcome) :
    Option CmdError × GCamState :=
  let r := is_exposing s
  if r.1 then
    (some (CmdError.invalidCommand "Command already running"), r.2)
  else
    match spawn with
    | SpawnOutcome.ok p => (none, { r.2 with command_proc := some p })
    | SpawnOutcome.osError =>
      (some (CmdError.invalidCommand "OSError"), r.2)
    | SpawnOutcome.valueError =>
      (some (CmdError.invalidCommand "ValueError"), r.2)
    | SpawnOutcome.otherError => (some CmdError.panError, r.2)

/-- Python `str.split` on a newline, as applied to the captured stdout. -/
def splitLines (s : String) : List String := s.splitOn "\n"

structure CmdResult where
  output : Option (List String)
  state : GCamState
  killed : Bool

/-- `AbstractGPhotoCamera.get_command_result` (base.py lines 105-134):
`None` immediately when no process is stored; otherwise
`communicate(timeout)`, and on `TimeoutExpired` `kill()` followed by a
second `communicate()` with no timeout; the stdout string is split into
lines, the process slot is cleared, and the lines are returned. -/
def get_command_result (s : GCamState) (timeout : ℚ) : CmdResult :=
  match s.command_proc with
  | none => { output := none, state := s, killed := false }
  | some p =>
    if p.exitsWithin timeout then
      { output := some (splitLines p.finalOut)
        state := { s with command_proc := none }
        killed := false }
    else
      { output := some (splitLines p.killOut)
        state := { s with command_proc := none }
        killed := true }

/-- Modelled from the spec: the camera exposing event is created by
`AbstractCamera` (panoptes.pocs.camera.camera, not under src/); a freshly
created event is unset, and per the spec only the exposure path sets it.
A camera that has issued no command and is not exposing. -/
def idleCam : GCamState := { command_proc := none, is_exposing_event := false }

/-- A spawned gphoto2 process that has not exited and does not exit
within any timeout. -/
def runningProc : GProc :=
  { exited := false, exitsWithin := fun _ => false, finalOut := ""
    finalErr := "", killOut := "", killErr := "" }

/-- A second such process, used as the replacement spawn. -/
def runningProc2 : GProc :=
  { exited := false, exitsWithin := fun _ => false, finalOut := "second"
    finalErr := "", killOut := "", killErr := "" }

/-! ## Camera registry (`Observatory.add_camera`, observatory.py 193-208) -/

structure PCam where
  cam_id : Nat
  is_primary : Bool
deriving DecidableEq

/-- Python dict assignment `d[k] = v` on an insertion-ordered dict
(`self.cameras` is an `OrderedDict`): an existing key keeps its position
and gets the new value; a new key is appended. -/
def dictSet (l : List (String × α)) (k : String) (v : α) :
    List (String × α) :=
  if k ∈ l.map Prod.fst then
    l.map (fun p => if p.1 = k then (k, v) else p)
  else
    l ++ [(k, v)]

/-- Python dict lookup `d[k]` on the insertion-ordered association
list: the value of the first (and, for a dict, only) pair carrying the
key. -/
def dictGet : List (String × α) → String → Option α
  | [], _ => none
  | p :: ps, k => if p.1 = k then some p.2 else dictGet ps k

structure ObsCams where
  cameras : List (String × PCam)
  primary_camera : Option PCam
deriving DecidableEq

/-- `Observatory.add_camera`: stores the camera under `cam_name` and, when
the camera is flagged primary, records it as the primary camera (the
`primary_camera` setter re-asserts the flag on the camera). -/
def add_camera (st : ObsCams) (cam_name : String) (camera : PCam) :
    ObsCams :=
  let cams := dictSet st.cameras cam_name camera
  if camera.is_primary then
    { cameras := cams
      primary_camera := some { camera with is_primary := true } }
  else
    { cameras := cams, primary_camera := st.primary_camera }

/-! ## Blocking wait in `Observatory.observe` (observatory.py 366-407)

Each camera is modelled by the instant from which `is_observing` reports
false (the flag is monotone for one exposure).  The countdown timer is
modelled by the elapsed virtual time: `CountdownTimer(timeout)` expires
once the elapsed time reaches `timeout`, and `timer.sleep(max_sleep=d)`
advances the elapsed time by `d` but never past `timeout`.  Polling and
flag checks take no virtual time.  The poll loop is written with a fuel
argument large enough to cover every poll the timer allows. -/

structure CamTiming where
  readout_time : ℚ
  timeout : ℚ

/-- All cameras report `is_observing is False` at elapsed time `t`. -/
def allDone (idle_times : List ℚ) (t : ℚ) : Bool :=
  idle_times.all (fun i => decide (i ≤ t))

/-- The `while timer.expired() is False` poll loop of `observe`: at each
iteration, if the timer has not expired, check every camera; on success
break (`true`), otherwise sleep `readout_time` more (clamped at the
budget) and repeat.  `false` means the timer expired. -/
def pollLoop (idle_times : List ℚ) (T r : ℚ) : ℕ → ℚ → Bool
  | 0, _ => false
  | Nat.succ fuel, elapsed =>
    if elapsed < T then
      if allDone idle_times elapsed then true
      else pollLoop idle_times T r fuel (min (elapsed + r) T)
    else false

inductive ObserveOutcome where
  | ok
  | timeoutError
deriving DecidableEq

/-- Enough fuel for every poll the budget allows: the polls advance by
`readout_time` from the first check until the budget `timeout` is
consumed. -/
def observeFuel (primary : CamTiming) : ℕ :=
  (⌈primary.timeout / primary.readout_time⌉).toNat + 1

/-- The blocking wait of `Observatory.observe`: budget
`exptime + readout_time + primary.timeout`; first sleep
`exptime + readout_time`; then poll all cameras every `readout_time`
until all are done or the timer expires, raising the timeout error in
the latter case. -/
def observe_blocking (exptime : ℚ) (primary : CamTiming)
    (idle_times : List ℚ) : ObserveOutcome :=
  let timeout := exptime + primary.readout_time + primary.timeout
  let start := min (exptime + primary.readout_time) timeout
  if pollLoop idle_times timeout primary.readout_time
      (observeFuel primary) start then
    ObserveOutcome.ok
  else
    ObserveOutcome.timeoutError

/-! ## `Observatory.process_observation` (observatory.py 409-497)

One exposure per camera (the last entry of its `exposure_list`).  Each
step flag below is the effective enablement: the explicit override
or-ed with the config lookup, exactly as each `if` in the source
computes it.  An exposure is modelled by which required metadata it has,
whether its status is already `complete`, and which steps raise when
attempted.  In the source, the solve, pretty-image and upload steps run
inside `try/except`; the compress and record steps do not, so their
exceptions abort the whole method. -/

inductive Step where
  | solve | compress | record | pretty | upload
deriving DecidableEq

structure StepConfig where
  plate_solve : Bool
  compress_fits : Bool
  record_observations : Bool
  make_pretty_images : Bool
  upload_image_immediately : Bool

structure ExposureInfo where
  has_required_fields : Bool
  status_complete : Bool
  solve_raises : Bool
  compress_raises : Bool
  record_raises : Bool
  pretty_raises : Bool
  upload_raises : Bool

/-- What processing one exposure does to the surrounding loop. -/
inductive ExpOutcome where
  | next
  | returnAll
  | panError
  | stepError
deriving DecidableEq

/-- The body of the `for cam_name in self.cameras.keys()` loop for one
exposure: the metadata extraction (KeyError becomes `PanError`), the
`complete` guard (a `return` from the whole method), then the five steps
in source order.  Returns the steps attempted for this exposure and the
loop outcome. -/
def processExposure (cfg : StepConfig) (e : ExposureInfo) :
    List Step × ExpOutcome :=
  if !e.has_required_fields then ([], ExpOutcome.panError)
  else if e.status_complete then ([], ExpOutcome.returnAll)
  else
    let s1 : List Step := if cfg.plate_solve then [Step.solve] else []
    if cfg.compress_fits && e.compress_raises then
      (s1 ++ [Step.compress], ExpOutcome.stepError)
    else
      let s2 := s1 ++ (if cfg.compress_fits then [Step.compress] else [])
      if cfg.record_observations && e.record_raises then
        (s2 ++ [Step.record], ExpOutcome.stepError)
      else
        let s3 := s2 ++
          (if cfg.record_observations then [Step.record] else [])
        let s4 := s3 ++
          (if cfg.make_pretty_images then [Step.pretty] else [])
        let s5 := s4 ++
          (if cfg.upload_image_immediately then [Step.upload] else [])
        (s5, ExpOutcome.next)

inductive RunError where
  | panError
  | stepError
deriving DecidableEq

/-- The camera loop of `process_observation`, tagging every attempted
step with the position of its camera in registry iteration order. -/
def processLoop (cfg : StepConfig) :
    List ExposureInfo → Nat → List (Nat × Step) × Option RunError
  | [], _ => ([], none)
  | e :: rest, i =>
    let r := processExposure cfg e
    let tagged := r.1.map (fun s => (i, s))
    match r.2 with
    | ExpOutcome.next =>
      let more := processLoop cfg rest (i + 1)
      (tagged ++ more.1, more.2)
    | ExpOutcome.returnAll => (tagged, none)
    | ExpOutcome.panError => (tagged, some RunError.panError)
    | ExpOutcome.stepError => (tagged, some RunError.stepError)

/-- `Observatory.process_observation` over the per-camera exposures in
registry iteration order: the attempted steps, tagged by camera
position, and the exception that escaped the method, if any. -/
def process_observation (cfg : StepConfig) (exps : List ExposureInfo) :
    List (Nat × Step) × Option RunError :=
  processLoop cfg exps 0

/-- The enabled steps of a configuration, in source order. -/
def enabledSteps (cfg : StepConfig) : List Step :=
  (if cfg.plate_solve then [Step.solve] else []) ++
  (if cfg.compress_fits then [Step.compress] else []) ++
  (if cfg.record_observations then [Step.record] else []) ++
  (if cfg.make_pretty_images then [Step.pretty] else []) ++
  (if cfg.upload_image_immediately then [Step.upload] else [])

/-- A configuration with every pipeline step enabled. -/
def cfgAll : StepConfig :=
  { plate_solve := true, compress_fits := true
    record_observations := true, make_pretty_images := true
    upload_image_immediately := true }

/-- An exposure with full metadata whose compress step raises. -/
def expCompressRaises : ExposureInfo :=
  { has_required_fields := true, status_complete := false
    solve_raises := false, compress_raises := true, record_raises := false
    pretty_raises := false, upload_raises := false }

/-- An exposure with full metadata whose record step raises. -/
def expRecordRaises : ExposureInfo :=
  { has_required_fields := true, status_complete := false
    solve_raises := false, compress_raises := false, record_raises := true
    pretty_raises := false, upload_raises := false }

/-- An exposure with full metadata whose solve, pretty-image and upload
steps all raise. -/
def expTolerated : ExposureInfo :=
  { has_required_fields := true, status_complete := false
    solve_raises := true, compress_raises := false, record_raises := false
    pretty_raises := true, upload_raises := true }

/-- A healthy exposure: full metadata, not complete, no step raises. -/
def expGood : ExposureInfo :=
  { has_required_fields := true, status_complete := false
    solve_raises := false, compress_raises := false
    record_raises := false, pretty_raises := false
    upload_raises := false }

/-- An exposure with full metadata already marked `complete`. -/
def expComplete : ExposureInfo :=
  { expGood with status_complete := true }

/-- A camera that already holds a live (never-exiting) process while the
exposing event is set: the state during a bulb exposure. -/
def exposingCam : GCamState :=
  { command_proc := some runningProc, is_exposing_event := true }

/-- A camera holding a live process with the exposing event clear: the
state right after a bare `command` call outside the exposure path. -/
def camWithProc : GCamState :=
  { command_proc := some runningProc, is_exposing_event := false }

/-- Concrete cameras for registry witnesses. -/
def cam0 : PCam := { cam_id := 0, is_primary := false }

def cam1 : PCam := { cam_id := 1, is_primary := false }

def cam2 : PCam := { cam_id := 2, is_primary := false }

/-- A registry holding two cameras in insertion order. -/
def regTwo : ObsCams :=
  { cameras := [("Cam00", cam0), ("Cam01", cam1)], primary_camera := none }

/-! # Theorems -/

/-! ## Helper lemmas -/

theorem pyIndex_eq_none {α : Type} (p : α → Bool) :
    ∀ l : List α, (∀ x ∈ l, p x = false) → pyIndex p l = none := by
  intro l
  induction l with
  | nil => intro _; rfl
  | cons x xs ih =>
    intro h
    simp only [pyIndex, h x (List.mem_cons_self x xs),
      Bool.false_eq_true, if_false,
      ih (fun y hy => h y (List.mem_cons_of_mem x hy)), Option.map_none']

theorem foldl_min_lt (q : ℚ) :
    ∀ (vs : List ℚ) (v : ℚ), v < q → (∀ x ∈ vs, x < q) →
      vs.foldl min v < q
  | [], _, hv, _ => hv
  | w :: ws, v, hv, h =>
    foldl_min_lt q ws (min v w)
      (lt_of_le_of_lt (min_le_left v w) hv)
      (fun x hx => h x (List.mem_cons_of_mem w hx))

/-! ## C1 -/

/-- C1, counterexample: on the spec example table
`[bulb, 30, 8, 1, "1/1000"]`, a requested duration of 45 seconds with
`return_minimum = true` resolves to index 0 (bulb), not to index 1 (the
longest non-bulb exposure) as the claim states. -/
theorem c1_counterexample :
    get_shutterspeed_index_tbl specExampleTail (PyVal.num 45) true =
      Except.ok 0 ∧
    get_shutterspeed_index_tbl specExampleTail (PyVal.num 45) true ≠
      Except.ok 1 := by
  constructor <;> decide

/-- C1, amended: a requested duration strictly greater than every
non-bulb entry of the table, with `return_minimum = true`, resolves to
index 0 (bulb): the minimum fallback only applies to durations shorter
than every non-bulb entry, so an over-long request falls through to
bulb. -/
theorem c1_too_long_resolves_to_bulb (tbl_tail : List (String × ℚ))
    (q : ℚ) (hne : tbl_tail ≠ [])
    (hgt : ∀ v ∈ tbl_tail.map Prod.snd, v < q) :
    get_shutterspeed_index_tbl tbl_tail (PyVal.num q) true =
      Except.ok 0 := by
  have hkeys : pyIndex (fun k => pyEq (PyVal.num q) (PyVal.str k))
      ("bulb" :: tbl_tail.map Prod.fst) = none := by
    apply pyIndex_eq_none
    intro x _
    rfl
  have hvals : pyIndex (fun w => pyEq (PyVal.num q) w)
      (PyVal.str "bulb" :: tbl_tail.map (fun p => PyVal.num p.2)) =
      none := by
    apply pyIndex_eq_none
    intro x hx
    rcases List.mem_cons.mp hx with rfl | hx
    · rfl
    · rcases List.mem_map.mp hx with ⟨pr, hpr, rfl⟩
      have hlt : pr.2 < q := hgt pr.2 (List.mem_map_of_mem Prod.snd hpr)
      simp only [pyEq, beq_eq_false_iff_ne, ne_eq]
      exact fun hc => absurd hc.symm (ne_of_lt hlt)
  cases hm : tbl_tail.map Prod.snd with
  | nil => exact absurd (List.map_eq_nil_iff.mp hm) hne
  | cons v vs =>
    have hv : v < q := hgt v (hm ▸ List.mem_cons_self v vs)
    have hvs : ∀ x ∈ vs, x < q := fun x hx =>
      hgt x (hm ▸ List.mem_cons_of_mem v hx)
    have hmin : vs.foldl min v < q := foldl_min_lt q vs v hv hvs
    simp only [get_shutterspeed_index_tbl, hkeys, hm, hvals,
      if_neg (lt_asymm hmin), ite_self]

/-- C1, witness for the amended theorem at the spec example table and a
45-second request. -/
theorem c1_too_long_resolves_to_bulb_witness :
    get_shutterspeed_index_tbl specExampleTail (PyVal.num 45) true =
      Except.ok 0 :=
  c1_too_long_resolves_to_bulb specExampleTail 45 (by decide) (by decide)

/-! ## C2 -/

/-- C2, code bug: a symbolic requested duration that matches no table key
(here the string `45`), with `return_minimum = true`, makes the source
evaluate the Python expression `seconds < min(...)` between a string and
a float, raising an uncaught `TypeError`; the claim (and the function
docstring) say such a request falls back to index 0 (bulb). -/
theorem c2_string_minimum_raises_typeerror :
    get_shutterspeed_index (PyVal.str "45") true =
      Except.error PyErr.typeError := by
  decide

/-! ## C5 -/

/-- C5, counterexample: after a bare `command` call from an idle camera,
the spawned process has not exited, yet a second `command` does not fail:
the guard consults only the exposing event, which a bare `command` never
sets, so the second call raises nothing and replaces the stored process
with a newly spawned one. -/
theorem c5_counterexample :
    runningProc.exited = false ∧
    (command idleCam (SpawnOutcome.ok runningProc)).1 = none ∧
    (command (command idleCam (SpawnOutcome.ok runningProc)).2
      (SpawnOutcome.ok runningProc2)).1 = none ∧
    (command (command idleCam (SpawnOutcome.ok runningProc)).2
      (SpawnOutcome.ok runningProc2)).2.command_proc = some runningProc2 :=
  ⟨rfl, rfl, rfl, rfl⟩

/-- C5, amended: while the exposing event is set and the stored process
has not exited, a second `command` fails with
`InvalidCommand("Command already running")` and leaves the camera state
unchanged, so no new process is started. -/
theorem c5_rejected_while_exposing (s : GCamState) (p : GProc)
    (spawn : SpawnOutcome) (hproc : s.command_proc = some p)
    (hex : p.exited = false) (hev : s.is_exposing_event = true) :
    (command s spawn).1 =
      some (CmdError.invalidCommand "Command already running") ∧
    (command s spawn).2 = s := by
  unfold command is_exposing
  rw [hproc]
  simp [hex, hev]

/-- C5, witness: the amended theorem at the exposing camera state. -/
theorem c5_rejected_while_exposing_witness :
    (command exposingCam (SpawnOutcome.ok runningProc2)).1 =
      some (CmdError.invalidCommand "Command already running") ∧
    (command exposingCam (SpawnOutcome.ok runningProc2)).2 =
      exposingCam :=
  c5_rejected_while_exposing exposingCam runningProc
    (SpawnOutcome.ok runningProc2) rfl rfl rfl

/-! ## C6 -/

/-- C6: for every in-flight invocation whose process does not exit
within the given timeout, `get_command_result` kills the process,
re-collects the output with no further timeout, returns the possibly
truncated line sequence, and clears the invocation slot; it neither
blocks nor raises. -/
theorem c6_timeout_kills_and_returns (s : GCamState) (p : GProc)
    (t : ℚ) (hproc : s.command_proc = some p)
    (hto : p.exitsWithin t = false) :
    get_command_result s t =
      { output := some (splitLines p.killOut)
        state := { s with command_proc := none }
        killed := true } := by
  unfold get_command_result
  rw [hproc]
  simp [hto]

/-- C6, witness: a live never-exiting process with a 10-second timeout. -/
theorem c6_timeout_kills_and_returns_witness :
    get_command_result camWithProc 10 =
      { output := some (splitLines runningProc.killOut)
        state := { camWithProc with command_proc := none }
        killed := true } :=
  c6_timeout_kills_and_returns camWithProc runningProc 10 rfl rfl

/-! ## C7 -/

/-- C7: `get_command_result` returns null immediately (leaving the state
untouched) when no invocation is in flight, and after any result
retrieval the invocation slot is cleared, so a second call for the same
invocation also returns null. -/
theorem c7_null_results :
    (∀ (s : GCamState) (t : ℚ), s.command_proc = none →
      get_command_result s t =
        { output := none, state := s, killed := false }) ∧
    (∀ (s : GCamState) (p : GProc) (t t2 : ℚ), s.command_proc = some p →
      (get_command_result s t).state.command_proc = none ∧
      (get_command_result (get_command_result s t).state t2).output =
        none) := by
  constructor
  · intro s t h
    unfold get_command_result
    rw [h]
  · intro s p t t2 h
    cases hw : p.exitsWithin t <;>
      simp [get_command_result, h, hw]

/-! ## C8 helper lemmas -/

theorem replace_map_fst {α : Type} (k : String) (v : α) :
    ∀ l : List (String × α),
      (l.map (fun p => if p.1 = k then (k, v) else p)).map Prod.fst =
        l.map Prod.fst := by
  intro l
  induction l with
  | nil => rfl
  | cons p ps ih =>
    simp only [List.map_cons]
    rw [ih]
    by_cases hpk : p.1 = k
    · simp [hpk]
    · simp [hpk]

theorem replace_dictGet_self {α : Type} (k : String) (v : α) :
    ∀ l : List (String × α), k ∈ l.map Prod.fst →
      dictGet (l.map (fun p => if p.1 = k then (k, v) else p)) k =
        some v := by
  intro l
  induction l with
  | nil => intro h; cases h
  | cons p ps ih =>
    intro h
    simp only [List.map_cons]
    by_cases hpk : p.1 = k
    · rw [if_pos hpk]
      simp [dictGet]
    · have hmem : k ∈ ps.map Prod.fst := by
        simp only [List.map_cons, List.mem_cons] at h
        rcases h with he | hm
        · exact absurd he.symm hpk
        · exact hm
      rw [if_neg hpk]
      simp only [dictGet]
      rw [if_neg hpk]
      exact ih hmem

theorem replace_dictGet_other {α : Type} (k n : String) (v : α)
    (hn : n ≠ k) :
    ∀ l : List (String × α),
      dictGet (l.map (fun p => if p.1 = k then (k, v) else p)) n =
        dictGet l n := by
  intro l
  induction l with
  | nil => rfl
  | cons p ps ih =>
    simp only [List.map_cons]
    by_cases hpk : p.1 = k
    · rw [if_pos hpk]
      simp only [dictGet]
      have hkn : ¬ (k = n) := fun he => hn he.symm
      have hpn : ¬ (p.1 = n) := by rw [hpk]; exact hkn
      rw [if_neg hkn, if_neg hpn]
      exact ih
    · rw [if_neg hpk]
      simp only [dictGet]
      by_cases hpn : p.1 = n
      · rw [if_pos hpn, if_pos hpn]
      · rw [if_neg hpn, if_neg hpn]
        exact ih

/-! ## C8 -/

/-- C8: registering a camera under a name already present replaces the
entry in place: the insertion-order key listing is unchanged, the name
now maps to the new camera, and every other name maps to what it mapped
to before. -/
theorem c8_replace_in_place (st : ObsCams) (cam_name : String)
    (camera : PCam) (hmem : cam_name ∈ st.cameras.map Prod.fst) :
    (add_camera st cam_name camera).cameras.map Prod.fst =
      st.cameras.map Prod.fst ∧
    dictGet (add_camera st cam_name camera).cameras cam_name =
      some camera ∧
    ∀ n, n ≠ cam_name →
      dictGet (add_camera st cam_name camera).cameras n =
        dictGet st.cameras n := by
  have hcams : (add_camera st cam_name camera).cameras =
      st.cameras.map
        (fun p => if p.1 = cam_name then (cam_name, camera) else p) := by
    cases hp : camera.is_primary <;>
      simp [add_camera, dictSet, hp, hmem]
  refine ⟨?_, ?_, ?_⟩
  · rw [hcams]
    exact replace_map_fst cam_name camera st.cameras
  · rw [hcams]
    exact replace_dictGet_self cam_name camera st.cameras hmem
  · intro n hn
    rw [hcams]
    exact replace_dictGet_other cam_name n camera hn st.cameras

/-- C8, witness: replacing `Cam00` in a two-camera registry keeps the
key order and leaves `Cam01` untouched. -/
theorem c8_replace_in_place_witness :
    (add_camera regTwo "Cam00" cam2).cameras.map Prod.fst =
      regTwo.cameras.map Prod.fst ∧
    dictGet (add_camera regTwo "Cam00" cam2).cameras "Cam00" =
      some cam2 ∧
    dictGet (add_camera regTwo "Cam00" cam2).cameras "Cam01" =
      dictGet regTwo.cameras "Cam01" :=
  ⟨(c8_replace_in_place regTwo "Cam00" cam2 (by decide)).1,
   (c8_replace_in_place regTwo "Cam00" cam2 (by decide)).2.1,
   (c8_replace_in_place regTwo "Cam00" cam2 (by decide)).2.2 "Cam01"
     (by decide)⟩

/-- C7, witness: no-invocation camera and a camera holding a live
process. -/
theorem c7_null_results_witness :
    get_command_result idleCam 10 =
      { output := none, state := idleCam, killed := false } ∧
    (get_command_result camWithProc 10).state.command_proc = none ∧
    (get_command_result
      (get_command_result camWithProc 10).state 10).output = none :=
  ⟨c7_null_results.1 idleCam 10 rfl,
   (c7_null_results.2 camWithProc runningProc 10 10 rfl).1,
   (c7_null_results.2 camWithProc runningProc 10 10 rfl).2⟩

/-! ## Pipeline helper lemmas -/

/-- An exposure already marked complete contributes no steps, whatever
the configuration: the method returns (or raises on missing metadata)
before any step runs. -/
theorem processExposure_complete (cfg : StepConfig) (e : ExposureInfo)
    (hc : e.status_complete = true) :
    processExposure cfg e = ([], ExpOutcome.returnAll) ∨
    processExposure cfg e = ([], ExpOutcome.panError) := by
  cases hf : e.has_required_fields
  · right
    simp [processExposure, hf]
  · left
    simp [processExposure, hf, hc]

/-- Steps attempted for the exposure at position `i` of the loop are
tagged `base + i`; an exposure whose status is complete has none. -/
theorem processLoop_complete_not_mem (cfg : StepConfig) :
    ∀ (exps : List ExposureInfo) (base i : ℕ) (e : ExposureInfo),
      exps.get? i = some e → e.status_complete = true →
      ∀ s, (base + i, s) ∉ (processLoop cfg exps base).1 := by
  intro exps
  induction exps with
  | nil => intro base i e hget; cases hget
  | cons e0 rest ih =>
    intro base i e hget hc s hmem
    cases i with
    | zero =>
      have he : e0 = e := by
        have := hget
        simp [List.get?] at this
        exact this
      subst he
      rcases processExposure_complete cfg e0 hc with hpe | hpe <;>
        simp [processLoop, hpe] at hmem
    | succ j =>
      have hget2 : rest.get? j = some e := by
        simpa [List.get?] using hget
      simp only [processLoop] at hmem
      rcases hpe : (processExposure cfg e0).2 with _ | _ | _ | _ <;>
        rw [hpe] at hmem <;>
        simp only [List.mem_append, List.mem_map] at hmem
      case next =>
        rcases hmem with ⟨a, _, hpair⟩ | hmem
        · have : base = base + (j + 1) := congrArg Prod.fst hpair
          omega
        · have hmem2 := ih (base + 1) j e hget2 hc s
          have : base + (j + 1) = (base + 1) + j := by omega
          rw [this] at hmem
          exact hmem2 hmem
      all_goals
        rcases hmem with ⟨a, _, hpair⟩
      all_goals
        have : base = base + (j + 1) := congrArg Prod.fst hpair
      all_goals omega

/-- While every earlier exposure lets the loop continue, a complete
exposure makes `processLoop` ignore everything after it, and every
attempted step belongs to an earlier camera. -/
theorem processLoop_stops_at_complete (cfg : StepConfig)
    (e : ExposureInfo) (exps2 : List ExposureInfo)
    (hf : e.has_required_fields = true) (hc : e.status_complete = true) :
    ∀ (exps1 : List ExposureInfo) (base : ℕ),
      (∀ e2 ∈ exps1, (processExposure cfg e2).2 = ExpOutcome.next) →
      processLoop cfg (exps1 ++ e :: exps2) base =
        processLoop cfg (exps1 ++ [e]) base ∧
      ∀ pr ∈ (processLoop cfg (exps1 ++ e :: exps2) base).1,
        pr.1 < base + exps1.length := by
  intro exps1
  induction exps1 with
  | nil =>
    intro base _
    have hpe : processExposure cfg e = ([], ExpOutcome.returnAll) := by
      simp [processExposure, hf, hc]
    constructor
    · simp [processLoop, hpe]
    · intro pr hpr
      simp [processLoop, hpe] at hpr
  | cons e1 rest ih =>
    intro base hnext
    have h1 : (processExposure cfg e1).2 = ExpOutcome.next :=
      hnext e1 (List.mem_cons_self e1 rest)
    have ih2 := ih (base + 1)
      (fun e2 he2 => hnext e2 (List.mem_cons_of_mem e1 he2))
    constructor
    · simp only [List.cons_append, processLoop, h1, List.append_eq]
      rw [ih2.1]
    · intro pr hpr
      simp only [List.cons_append, processLoop, h1, List.append_eq] at hpr
      simp only [List.mem_append, List.mem_map] at hpr
      rcases hpr with ⟨a, _, hpair⟩ | hpr
      · have : pr.1 = base := by rw [← hpair]
        simp only [List.length_cons]
        omega
      · have := ih2.2 pr hpr
        simp only [List.length_cons]
        omega

/-! ## C3 -/

/-- C3, counterexample: with every step enabled, an exposure whose
compress step raises aborts the run right there — only the solve and
compress steps are attempted, the upload step never runs, and the
exception escapes the method; likewise an exposure whose record step
raises aborts after the record attempt, again skipping the upload step.
Both contradict the claim that every step exception is caught and
subsequent steps still execute. -/
theorem c3_counterexample :
    (process_observation cfgAll [expCompressRaises] =
      ([(0, Step.solve), (0, Step.compress)], some RunError.stepError) ∧
     (0, Step.upload) ∉
       (process_observation cfgAll [expCompressRaises]).1) ∧
    (process_observation cfgAll [expRecordRaises] =
      ([(0, Step.solve), (0, Step.compress), (0, Step.record)],
        some RunError.stepError) ∧
     (0, Step.upload) ∉
       (process_observation cfgAll [expRecordRaises]).1) := by
  refine ⟨⟨rfl, ?_⟩, ⟨rfl, ?_⟩⟩
  · decide
  · decide

/-- C3, amended: exceptions in the solve, pretty-image and upload steps
are caught and do not prevent any later enabled step from running, but
an exception in the compress or record step is not caught: it aborts
the pipeline run.  Part one: whenever compress and record do not raise,
every enabled step is attempted and the method returns normally, no
matter which of the other steps raise.  Part two: a raising compress
step ends the run immediately after the compress attempt.  Part three:
a raising record step (with compress quiet) ends the run immediately
after the record attempt. -/
theorem c3_amended :
    (∀ (cfg : StepConfig) (e : ExposureInfo),
      e.has_required_fields = true → e.status_complete = false →
      e.compress_raises = false → e.record_raises = false →
      process_observation cfg [e] =
        ((enabledSteps cfg).map (fun s => (0, s)), none)) ∧
    (∀ (cfg : StepConfig) (e : ExposureInfo),
      e.has_required_fields = true → e.status_complete = false →
      cfg.compress_fits = true → e.compress_raises = true →
      process_observation cfg [e] =
        (((if cfg.plate_solve then [Step.solve] else []) ++
            [Step.compress]).map (fun s => (0, s)),
          some RunError.stepError)) ∧
    (∀ (cfg : StepConfig) (e : ExposureInfo),
      e.has_required_fields = true → e.status_complete = false →
      e.compress_raises = false → cfg.record_observations = true →
      e.record_raises = true →
      process_observation cfg [e] =
        (((if cfg.plate_solve then [Step.solve] else []) ++
            (if cfg.compress_fits then [Step.compress] else []) ++
            [Step.record]).map (fun s => (0, s)),
          some RunError.stepError)) := by
  refine ⟨?_, ?_, ?_⟩
  · intro cfg e h1 h2 h3 h4
    simp [process_observation, processLoop, processExposure, enabledSteps,
      h1, h2, h3, h4]
  · intro cfg e h1 h2 h3 h4
    simp [process_observation, processLoop, processExposure,
      h1, h2, h3, h4]
  · intro cfg e h1 h2 h3 h4 h5
    simp [process_observation, processLoop, processExposure,
      h1, h2, h3, h4, h5]

/-- C3, witness for the amended theorem: with every step enabled, an
exposure whose solve, pretty-image and upload steps all raise still has
every enabled step attempted and the method returns normally; and an
exposure whose record step raises aborts right after the record
attempt. -/
theorem c3_amended_witness :
    process_observation cfgAll [expTolerated] =
      ((enabledSteps cfgAll).map (fun s => (0, s)), none) ∧
    process_observation cfgAll [expRecordRaises] =
      (((if cfgAll.plate_solve then [Step.solve] else []) ++
          (if cfgAll.compress_fits then [Step.compress] else []) ++
          [Step.record]).map (fun s => (0, s)),
        some RunError.stepError) :=
  ⟨c3_amended.1 cfgAll expTolerated rfl rfl rfl rfl,
   c3_amended.2.2 cfgAll expRecordRaises rfl rfl rfl rfl rfl⟩

/-! ## C9 -/

/-- C9: an exposure whose metadata has the required fields and whose
status is already `complete` gets zero pipeline steps, and a run whose
exposure is such an exposure returns without error; in any multi-camera
run, no step is ever attempted for a complete exposure. -/
theorem c9_complete_is_noop :
    (∀ (cfg : StepConfig) (e : ExposureInfo),
      e.has_required_fields = true → e.status_complete = true →
      process_observation cfg [e] = ([], none)) ∧
    (∀ (cfg : StepConfig) (exps : List ExposureInfo) (i : ℕ)
      (e : ExposureInfo), exps.get? i = some e →
      e.status_complete = true →
      ∀ s, (i, s) ∉ (process_observation cfg exps).1) := by
  constructor
  · intro cfg e h1 h2
    simp [process_observation, processLoop, processExposure, h1, h2]
  · intro cfg exps i e hget hc s
    have h := processLoop_complete_not_mem cfg exps 0 i e hget hc s
    simpa [process_observation] using h

/-- C9, witness: a complete exposure is processed with zero steps and no
error. -/
theorem c9_complete_is_noop_witness :
    process_observation cfgAll [expComplete] = ([], none) :=
  c9_complete_is_noop.1 cfgAll expComplete rfl rfl

/-! ## C10 -/

/-- C10: when the loop reaches an exposure with the required fields that
is already marked `complete`, the method returns at once: the run is
the same as if the later cameras did not exist, and every attempted
step belongs to a camera strictly before the complete one in registry
iteration order. -/
theorem c10_complete_stops_whole_run (cfg : StepConfig)
    (exps1 : List ExposureInfo) (e : ExposureInfo)
    (exps2 : List ExposureInfo)
    (hnext : ∀ e2 ∈ exps1, (processExposure cfg e2).2 = ExpOutcome.next)
    (hf : e.has_required_fields = true)
    (hc : e.status_complete = true) :
    process_observation cfg (exps1 ++ e :: exps2) =
      process_observation cfg (exps1 ++ [e]) ∧
    ∀ pr ∈ (process_observation cfg (exps1 ++ e :: exps2)).1,
      pr.1 < exps1.length := by
  have h := processLoop_stops_at_complete cfg e exps2 hf hc exps1 0 hnext
  constructor
  · simpa [process_observation] using h.1
  · intro pr hpr
    have := h.2 pr (by simpa [process_observation] using hpr)
    simpa using this

/-- C10, witness: a healthy camera followed by a complete exposure and a
third camera; the third camera is never processed. -/
theorem c10_complete_stops_whole_run_witness :
    process_observation cfgAll [expGood, expComplete, expGood] =
      process_observation cfgAll [expGood, expComplete] ∧
    (2, Step.solve) ∉
      (process_observation cfgAll [expGood, expComplete, expGood]).1 := by
  have h := c10_complete_stops_whole_run cfgAll [expGood] expComplete
    [expGood] (by decide) rfl rfl
  refine ⟨h.1, fun hmem => ?_⟩
  have h2 := h.2 (2, Step.solve) hmem
  simp at h2

/-! ## C4 helper lemmas -/

/-- The poll loop succeeds, given any fuel, exactly when one of the
first `fuel` poll instants `e + k * r` lies before the expiry `T` and
finds every camera done.  The clamped sleep `min (elapsed + r) T` makes
the poll instants `e`, `e + r`, `e + 2r`, ... until the budget is
consumed. -/
theorem pollLoop_true_iff (idle : List ℚ) (T r : ℚ) (hr : 0 ≤ r) :
    ∀ (fuel : ℕ) (e : ℚ), pollLoop idle T r fuel e = true ↔
      ∃ k : ℕ, k < fuel ∧ e + (k : ℚ) * r < T ∧
        allDone idle (e + (k : ℚ) * r) = true := by
  intro fuel
  induction fuel with
  | zero =>
    intro e
    simp [pollLoop]
  | succ n ih =>
    intro e
    simp only [pollLoop]
    by_cases he : e < T
    · rw [if_pos he]
      cases hd : allDone idle e
      · simp only [Bool.false_eq_true, if_false]
        rw [ih (min (e + r) T)]
        constructor
        · rintro ⟨k, hk, hlt, hdk⟩
          by_cases hcl : e + r ≤ T
          · rw [min_eq_left hcl] at hlt hdk
            have hcast : e + r + (k : ℚ) * r =
                e + ((k + 1 : ℕ) : ℚ) * r := by
              push_cast
              ring
            refine ⟨k + 1, by omega, ?_, ?_⟩
            · rw [← hcast]
              exact hlt
            · rw [← hcast]
              exact hdk
          · have hmin : min (e + r) T = T :=
              min_eq_right (le_of_not_le hcl)
            rw [hmin] at hlt
            have hkr : (0 : ℚ) ≤ (k : ℚ) * r :=
              mul_nonneg (Nat.cast_nonneg k) hr
            exact absurd hlt (by linarith)
        · rintro ⟨k, hk, hlt, hdk⟩
          cases k with
          | zero =>
            simp only [Nat.cast_zero, zero_mul, add_zero] at hdk
            rw [hd] at hdk
            cases hdk
          | succ j =>
            have hone : (1 : ℚ) ≤ ((j + 1 : ℕ) : ℚ) := by
              push_cast
              linarith [Nat.cast_nonneg (α := ℚ) j]
            have hjr : r ≤ ((j + 1 : ℕ) : ℚ) * r :=
              le_mul_of_one_le_left hr hone
            have hcl : e + r ≤ T := by linarith
            have hcast : e + ((j + 1 : ℕ) : ℚ) * r =
                e + r + (j : ℚ) * r := by
              push_cast
              ring
            rw [hcast] at hlt hdk
            refine ⟨j, by omega, ?_, ?_⟩
            · rw [min_eq_left hcl]
              exact hlt
            · rw [min_eq_left hcl]
              exact hdk
      · simp only [if_true]
        constructor
        · intro _
          exact ⟨0, Nat.succ_pos n,
            by simpa using he, by simpa using hd⟩
        · intro _
          trivial
    · rw [if_neg he]
      simp only [Bool.false_eq_true, false_iff]
      rintro ⟨k, _, hlt, _⟩
      have hkr : (0 : ℚ) ≤ (k : ℚ) * r :=
        mul_nonneg (Nat.cast_nonneg k) hr
      exact absurd hlt (by linarith)

/-! ## C4 -/

/-- C4: the blocking wait of `observe` uses the budget
`exptime + readout_time + primary.timeout`, first sleeps
`exptime + readout_time`, then polls every camera at `readout_time`
intervals; it returns successfully exactly when some poll instant
before the budget expiry finds every camera no longer exposing, and
raises the timeout error exactly otherwise. -/
theorem c4_observe_blocking (exptime : ℚ) (primary : CamTiming)
    (idle_times : List ℚ) (hr : 0 < primary.readout_time)
    (ht : 0 ≤ primary.timeout) :
    (observe_blocking exptime primary idle_times = ObserveOutcome.ok ↔
      ∃ k : ℕ,
        exptime + primary.readout_time +
            (k : ℚ) * primary.readout_time <
          exptime + primary.readout_time + primary.timeout ∧
        allDone idle_times
          (exptime + primary.readout_time +
            (k : ℚ) * primary.readout_time) = true) ∧
    (observe_blocking exptime primary idle_times =
        ObserveOutcome.timeoutError ↔
      ¬ ∃ k : ℕ,
        exptime + primary.readout_time +
            (k : ℚ) * primary.readout_time <
          exptime + primary.readout_time + primary.timeout ∧
        allDone idle_times
          (exptime + primary.readout_time +
            (k : ℚ) * primary.readout_time) = true) := by
  have hs0 : min (exptime + primary.readout_time)
      (exptime + primary.readout_time + primary.timeout) =
      exptime + primary.readout_time :=
    min_eq_left (le_add_of_nonneg_right ht)
  have hiff : pollLoop idle_times
      (exptime + primary.readout_time + primary.timeout)
      primary.readout_time (observeFuel primary)
      (exptime + primary.readout_time) = true ↔
      ∃ k : ℕ,
        exptime + primary.readout_time +
            (k : ℚ) * primary.readout_time <
          exptime + primary.readout_time + primary.timeout ∧
        allDone idle_times
          (exptime + primary.readout_time +
            (k : ℚ) * primary.readout_time) = true := by
    rw [pollLoop_true_iff idle_times _ _ (le_of_lt hr)]
    constructor
    · rintro ⟨k, _, h2, h3⟩
      exact ⟨k, h2, h3⟩
    · rintro ⟨k, h2, h3⟩
      refine ⟨k, ?_, h2, h3⟩
      have hkr : (k : ℚ) * primary.readout_time < primary.timeout := by
        linarith
      have hkd : (k : ℚ) <
          primary.timeout / primary.readout_time :=
        (lt_div_iff₀ hr).mpr hkr
      have hkc : (k : ℤ) <
          ⌈primary.timeout / primary.readout_time⌉ := by
        rw [Int.lt_ceil]
        exact_mod_cast hkd
      have hktn : k <
          (⌈primary.timeout / primary.readout_time⌉).toNat :=
        Int.lt_toNat.mpr hkc
      unfold observeFuel
      omega
  have main : observe_blocking exptime primary idle_times =
      ObserveOutcome.ok ↔
      ∃ k : ℕ,
        exptime + primary.readout_time +
            (k : ℚ) * primary.readout_time <
          exptime + primary.readout_time + primary.timeout ∧
        allDone idle_times
          (exptime + primary.readout_time +
            (k : ℚ) * primary.readout_time) = true := by
    simp only [observe_blocking, hs0]
    cases hpoll : pollLoop idle_times
        (exptime + primary.readout_time + primary.timeout)
        primary.readout_time (observeFuel primary)
        (exptime + primary.readout_time)
    · simp only [Bool.false_eq_true, if_false]
      constructor
      · intro hcontra
        cases hcontra
      · intro hex
        have := hiff.mpr hex
        rw [hpoll] at this
        cases this
    · simp only [if_true, true_iff]
      exact hiff.mp hpoll
  refine ⟨main, ?_, ?_⟩
  · intro herr hex
    have hok := main.mpr hex
    rw [hok] at herr
    cases herr
  · intro hnex
    cases ho : observe_blocking exptime primary idle_times
    · exact absurd (main.mp ho) hnex
    · rfl

/-- C4, witness: the spec scenario `exposure=2s, readout=1s,
deviceTimeout=5s`, all cameras idle from 2.5 s: the blocking wait
returns successfully. -/
theorem c4_observe_blocking_witness :
    observe_blocking 2 { readout_time := 1, timeout := 5 }
      [Rat.divInt 5 2, Rat.divInt 5 2] = ObserveOutcome.ok :=
  ((c4_observe_blocking 2 { readout_time := 1, timeout := 5 }
      [Rat.divInt 5 2, Rat.divInt 5 2] (by norm_num) (by norm_num)).1).mpr
    ⟨0, by norm_num,
      by norm_num [allDone, Rat.divInt_eq_div, decide_eq_true_eq]⟩

end POCS
